import Mathlib

/-!
# Verification of the VisualSpec CSV editing core

Shallow embedding of `src/csv_editor.py` (class `CsvEditor`): the in-memory
tabular document (headers + rows of strings), its mutation operations, and
CSV serialization/parsing as performed by Python's `csv` module with the
default dialect (comma delimiter, double-quote quoting with doubled-quote
escaping, QUOTE_MINIMAL, CRLF line terminator).

Python `int` indices are embedded as `Int`; Python list indexing (including
negative indexing and `IndexError`) is embedded by `pyIdx`/`pyGet`/`pySet`;
Python `list.insert` clamping is embedded by `pyInsert`. Operations that can
raise an unhandled `IndexError` return `Option` (`none` = the exception).
File I/O is embedded by passing the file's decoded text (or the I/O error)
explicitly to `load_from_csv`.
-/

/-- Python list index resolution: a non-negative index must be `< n`; a
negative index `i` addresses position `n + i`; anything else is an
`IndexError` (`none`). -/
def pyIdx (n : Nat) (i : Int) : Option Nat :=
  if 0 ≤ i then
    if i < (n : Int) then some i.toNat else none
  else
    if 0 ≤ (n : Int) + i then some ((n : Int) + i).toNat else none

/-- Python `l[i]` for reading. -/
def pyGet (l : List α) (i : Int) : Option α :=
  (pyIdx l.length i).bind fun k => l[k]?

/-- Python `l[i] = a`. -/
def pySet (l : List α) (i : Int) (a : α) : Option (List α) :=
  (pyIdx l.length i).map fun k => l.set k a

/-- Position at which Python `list.insert(i, a)` inserts: clamped to
`[0, n]`, with negative `i` counted from the end. -/
def pyInsertPos (n : Nat) (i : Int) : Nat :=
  if 0 ≤ i then min i.toNat n else ((n : Int) + i).toNat

/-- Python `l.insert(i, a)`. -/
def pyInsert (l : List α) (i : Int) (a : α) : List α :=
  l.insertIdx (pyInsertPos l.length i) a

/-- The `CsvEditor` document state: `_data` is the list of data rows,
`_headers` the header row (field names as in `csv_editor.py`). -/
structure CsvEditor where
  _data : List (List String)
  _headers : List String
deriving DecidableEq, Repr

namespace CsvEditor

/-- `CsvEditor.row_count`: number of data rows. -/
def row_count (e : CsvEditor) : Nat :=
  e._data.length

/-- `CsvEditor.column_count`: `len(self._headers)` when headers are
non-empty, else the length of the first data row, else `0`. -/
def column_count (e : CsvEditor) : Nat :=
  if e._headers.isEmpty then
    match e._data with
    | [] => 0
    | r :: _ => r.length
  else e._headers.length

/-- `CsvEditor.get_cell`: `""` when the row or the column index is out of
bounds, else the stored cell. -/
def get_cell (e : CsvEditor) (row col : Int) : String :=
  if row < 0 ∨ (e._data.length : Int) ≤ row then ""
  else
    let r := e._data.getD row.toNat []
    if col < 0 ∨ (r.length : Int) ≤ col then "" else r.getD col.toNat ""

/-- `CsvEditor.set_cell`: rejects an out-of-bounds row (`false`); otherwise
grows the addressed row with `""` while `col >= len(row)`, then performs the
Python assignment `self._data[row][col] = value` (which for a negative `col`
uses negative indexing and may raise `IndexError`, embedded as `none`). -/
def set_cell (e : CsvEditor) (row col : Int) (value : String) :
    Option (CsvEditor × Bool) :=
  if row < 0 ∨ (e._data.length : Int) ≤ row then some (e, false)
  else
    let r := e._data.getD row.toNat []
    let r' := if 0 ≤ col then r ++ List.replicate (col.toNat + 1 - r.length) "" else r
    match pySet r' col value with
    | some r2 => some (⟨e._data.set row.toNat r2, e._headers⟩, true)
    | none => none

/-- `CsvEditor.get_header`: the stored header if headers are non-empty and
`col < len(self._headers)` (a Python read, so negative `col` indexes from the
end and may raise), else the placeholder `"Column " + str(col + 1)`. -/
def get_header (e : CsvEditor) (col : Int) : Option String :=
  if ¬e._headers.isEmpty ∧ col < (e._headers.length : Int) then
    pyGet e._headers col
  else some ("Column " ++ toString (col + 1))

/-- `CsvEditor.set_header`: grows the header list with `""` padding when
`col >= len(self._headers)`, then performs `self._headers[col] = value`
(Python assignment, so negative `col` indexes from the end and may raise). -/
def set_header (e : CsvEditor) (col : Int) (value : String) :
    Option (CsvEditor × Bool) :=
  let hs := if (e._headers.length : Int) ≤ col then
      e._headers ++ List.replicate (col.toNat + 1 - e._headers.length) ""
    else e._headers
  match pySet hs col value with
  | some hs2 => some (⟨e._data, hs2⟩, true)
  | none => none

/-- Loop of `CsvEditor.insert_row`: `count` times `self._data.insert(row, [""] * cols)`. -/
def insRowLoop (newRow : List String) (pos : Nat) : Nat → List (List String) → List (List String)
  | 0, data => data
  | k + 1, data => insRowLoop newRow pos k (data.insertIdx pos newRow)

/-- `CsvEditor.insert_row`: rejects `row < 0` and `row > len(self._data)`;
otherwise inserts `count` rows of `column_count` empty strings at `row`. -/
def insert_row (e : CsvEditor) (row : Int) (count : Nat) : CsvEditor × Bool :=
  if row < 0 ∨ (e._data.length : Int) < row then (e, false)
  else (⟨insRowLoop (List.replicate (column_count e) "") row.toNat count e._data, e._headers⟩, true)

/-- Loop of `CsvEditor.remove_row`: `count` times, pop at `row` if still in range. -/
def remRowLoop (pos : Nat) : Nat → List (List String) → List (List String)
  | 0, data => data
  | k + 1, data => remRowLoop pos k (if pos < data.length then data.eraseIdx pos else data)

/-- `CsvEditor.remove_row`: rejects `row < 0` and `row >= len(self._data)`;
otherwise pops up to `count` rows at `row`. -/
def remove_row (e : CsvEditor) (row : Int) (count : Nat) : CsvEditor × Bool :=
  if row < 0 ∨ (e._data.length : Int) ≤ row then (e, false)
  else (⟨remRowLoop row.toNat count e._data, e._headers⟩, true)

/-- Loop of `CsvEditor.insert_column`: `count` times `l.insert(col, "")`. -/
def insColLoop (col : Int) : Nat → List String → List String
  | 0, l => l
  | k + 1, l => insColLoop col k (pyInsert l col "")

/-- `CsvEditor.insert_column`: rejects `col < 0`; otherwise synthesizes
`column_count` empty headers when headers are empty, then inserts `count`
empty header slots and `count` empty cells in every row at `col`. -/
def insert_column (e : CsvEditor) (col : Int) (count : Nat) : CsvEditor × Bool :=
  if col < 0 then (e, false)
  else
    (⟨e._data.map (insColLoop col count),
      insColLoop col count
        (if e._headers.isEmpty then List.replicate (column_count e) "" else e._headers)⟩,
     true)

/-- One iteration of the `CsvEditor.remove_column` loop: pop the header at
`col` if headers are non-empty and `col` is in range, and pop cell `col` of
every row where it is in range. -/
def remColOnce (col : Nat) (e : CsvEditor) : CsvEditor :=
  ⟨e._data.map (fun r => if col < r.length then r.eraseIdx col else r),
   if ¬e._headers.isEmpty ∧ col < e._headers.length then e._headers.eraseIdx col
   else e._headers⟩

/-- Loop of `CsvEditor.remove_column`: `count` iterations of `remColOnce`. -/
def remColLoop (col : Nat) : Nat → CsvEditor → CsvEditor
  | 0, e => e
  | k + 1, e => remColLoop col k (remColOnce col e)

/-- `CsvEditor.remove_column`: rejects `col < 0`; otherwise runs the loop. -/
def remove_column (e : CsvEditor) (col : Int) (count : Nat) : CsvEditor × Bool :=
  if col < 0 then (e, false)
  else (remColLoop col.toNat count e, true)

/-- `CsvEditor.clear_cell`: `set_cell(row, col, "")`. -/
def clear_cell (e : CsvEditor) (row col : Int) : Option (CsvEditor × Bool) :=
  set_cell e row col ""

end CsvEditor

/-- Characters that make Python's `csv.writer` (QUOTE_MINIMAL default
dialect) quote a field: the delimiter, the quote character, and the line
terminator's characters. -/
def csvSpecial (c : Char) : Prop :=
  c = ',' ∨ c = '"' ∨ c = '\r' ∨ c = '\n'

instance (c : Char) : Decidable (csvSpecial c) := by
  unfold csvSpecial; infer_instance

/-- Whether `csv.writer` quotes the field under QUOTE_MINIMAL. -/
def needsQuoting (s : String) : Bool :=
  s.data.any (fun c => decide (csvSpecial c))

/-- Doubled-quote escaping applied inside a quoted field. -/
def escQuotes : List Char → List Char
  | [] => []
  | c :: cs => if c = '"' then '"' :: '"' :: escQuotes cs else c :: escQuotes cs

/-- Serialization of one field by `csv.writer`. -/
def writeField (s : String) : List Char :=
  if needsQuoting s then '"' :: (escQuotes s.data ++ ['"']) else s.data

/-- Fields of one record joined with the comma delimiter. -/
def writeFields : List String → List Char
  | [] => []
  | [f] => writeField f
  | f :: fs => writeField f ++ ',' :: writeFields fs

/-- One record as written by `csv.writer.writerow`: the fields joined by the
delimiter, then CRLF — except CPython's special case that a record of
exactly one empty field (`num_fields > 0` with nothing written yet) is
emitted as a quoted empty field, so that it is not mistaken for a blank
line. -/
def writeRecord (r : List String) : List Char :=
  if r = [""] then ['"', '"', '\r', '\n']
  else writeFields r ++ ['\r', '\n']

/-- A whole file as written by `writerow`/`writerows`. -/
def writeRecords (rs : List (List String)) : List Char :=
  (rs.map writeRecord).flatten

/-- States of the `csv.reader` field/record state machine (`START_RECORD`,
`START_FIELD`, `IN_FIELD`, `IN_QUOTED_FIELD`, `QUOTE_IN_QUOTED_FIELD`).
`eatLF` is the part of `EAT_CRNL` reachable from writer-style input: right
after an unquoted `'\r'` terminated a record, one immediately following
`'\n'` is consumed before the next record starts. -/
inductive PState
  | atRecord
  | eatLF
  | atField
  | inField
  | inQuoted
  | quoteInQuoted
deriving DecidableEq, Repr

/-- The `csv.reader` state machine of Python's default dialect (doubled-quote
escaping, non-strict): `f` accumulates the current field's characters, `r`
the current record's completed fields. -/
def csvRun (st : PState) (cs : List Char) (f : List Char) (r : List String) :
    List (List String) :=
  match cs with
  | [] =>
    match st with
    | .atRecord => []
    | .eatLF => []
    | .atField => [r ++ [""]]
    | .inField => [r ++ [String.mk f]]
    | .inQuoted => [r ++ [String.mk f]]
    | .quoteInQuoted => [r ++ [String.mk f]]
  | c :: rest =>
    match st with
    | .atRecord =>
      if c = '\n' then [] :: csvRun .atRecord rest [] []
      else if c = '\r' then [] :: csvRun .eatLF rest [] []
      else if c = ',' then csvRun .atField rest [] [""]
      else if c = '"' then csvRun .inQuoted rest [] []
      else csvRun .inField rest [c] []
    | .eatLF =>
      if c = '\n' then csvRun .atRecord rest [] []
      else if c = '\r' then [] :: csvRun .eatLF rest [] []
      else if c = ',' then csvRun .atField rest [] [""]
      else if c = '"' then csvRun .inQuoted rest [] []
      else csvRun .inField rest [c] []
    | .atField =>
      if c = '\n' then (r ++ [""]) :: csvRun .atRecord rest [] []
      else if c = '\r' then (r ++ [""]) :: csvRun .eatLF rest [] []
      else if c = ',' then csvRun .atField rest [] (r ++ [""])
      else if c = '"' then csvRun .inQuoted rest [] r
      else csvRun .inField rest [c] r
    | .inField =>
      if c = '\n' then (r ++ [String.mk f]) :: csvRun .atRecord rest [] []
      else if c = '\r' then (r ++ [String.mk f]) :: csvRun .eatLF rest [] []
      else if c = ',' then csvRun .atField rest [] (r ++ [String.mk f])
      else csvRun .inField rest (f ++ [c]) r
    | .inQuoted =>
      if c = '"' then csvRun .quoteInQuoted rest f r
      else csvRun .inQuoted rest (f ++ [c]) r
    | .quoteInQuoted =>
      if c = '"' then csvRun .inQuoted rest (f ++ ['"']) r
      else if c = ',' then csvRun .atField rest [] (r ++ [String.mk f])
      else if c = '\n' then (r ++ [String.mk f]) :: csvRun .atRecord rest [] []
      else if c = '\r' then (r ++ [String.mk f]) :: csvRun .eatLF rest [] []
      else csvRun .inField rest (f ++ [c]) r

/-- Parse a whole CSV text into its records, as `list(csv.reader(f))`. -/
def csvParse (cs : List Char) : List (List String) :=
  csvRun .atRecord cs [] []

/-- Python `max([a] + l)`. -/
def listMax (a : Nat) (l : List Nat) : Nat :=
  l.foldl max a

namespace CsvEditor

/-- Body of `CsvEditor.load_from_csv` after the file has been read and
parsed: first record becomes the headers, the rest the data, and both are
right-padded with `""` to the maximum observed width. -/
def loadRecords (recs : List (List String)) : CsvEditor :=
  let rows := if recs.isEmpty then [[]] else recs
  let headers := rows.headD []
  let data := rows.tail
  let max_cols := if data.isEmpty then headers.length
    else listMax headers.length (data.map List.length)
  ⟨data.map (fun r => r ++ List.replicate (max_cols - r.length) ""),
   headers ++ List.replicate (max_cols - headers.length) ""⟩

/-- `CsvEditor.load_from_csv`: the open/read/decode of the file is embedded
as the `contents` argument (`Except.error` = the raised `IOError` or decode
error). It happens before any mutation, so on error the document is
returned unchanged together with the propagated error message. -/
def load_from_csv (e : CsvEditor) (contents : Except String String) :
    CsvEditor × Option String :=
  match contents with
  | .error err => (e, some err)
  | .ok s => (loadRecords (csvParse s.data), none)

/-- Truthiness of the Python `column_order` argument: `None` and the empty
list are falsy. -/
def orderTruthy : Option (List Int) → Bool
  | none => false
  | some l => !l.isEmpty

/-- `CsvEditor.save_to_csv`: pads headers and rows to the maximum width,
optionally permutes the columns by `column_order` (skipped when that
argument is `None` or empty; a bad index raises `IndexError`, embedded as
`none`), and returns the text written to the file. -/
def save_to_csv (e : CsvEditor) (column_order : Option (List Int)) :
    Option String :=
  let max_cols := if e._data.isEmpty then e._headers.length
    else listMax e._headers.length (e._data.map List.length)
  let headers := e._headers ++ List.replicate (max_cols - e._headers.length) ""
  let rows := e._data.map (fun r => r ++ List.replicate (max_cols - r.length) "")
  if orderTruthy column_order then
    match (column_order.getD []).mapM (fun i => pyGet headers i) with
    | none => none
    | some headers2 =>
      match rows.mapM (fun row => (column_order.getD []).mapM (fun i => pyGet row i)) with
      | none => none
      | some rows2 => some (String.mk (writeRecords (headers2 :: rows2)))
  else some (String.mk (writeRecords (headers :: rows)))

end CsvEditor

/-- The rectangularity invariant of the spec: every data row's length equals
`column_count`. -/
def rectangular (e : CsvEditor) : Prop :=
  ∀ r ∈ e._data, r.length = e.column_count

instance (e : CsvEditor) : Decidable (rectangular e) :=
  List.decidableBAll _ e._data

/-- The structural operations quantified over by the rectangularity claim. -/
inductive StructOp where
  | insRow (row : Int) (count : Nat)
  | remRow (row : Int) (count : Nat)
  | insCol (col : Int) (count : Nat)
  | remCol (col : Int) (count : Nat)
deriving DecidableEq, Repr

/-- Apply one structural operation to the document (the state after the
call, whether accepted or rejected). -/
def applyOp (e : CsvEditor) : StructOp → CsvEditor
  | .insRow row count => (e.insert_row row count).1
  | .remRow row count => (e.remove_row row count).1
  | .insCol col count => (e.insert_column col count).1
  | .remCol col count => (e.remove_column col count).1

lemma pyInsertPos_le (n : Nat) (i : Int) : pyInsertPos n i ≤ n := by
  unfold pyInsertPos; split <;> omega

lemma length_pyInsert (l : List α) (i : Int) (a : α) :
    (pyInsert l i a).length = l.length + 1 :=
  List.length_insertIdx _ _ (pyInsertPos_le _ _)

lemma mem_pyInsert {x a : α} {l : List α} {i : Int} (h : x ∈ pyInsert l i a) :
    x = a ∨ x ∈ l :=
  (List.mem_insertIdx (pyInsertPos_le _ _)).1 h

lemma insColLoop_length (col : Int) (k : Nat) (l : List String) :
    (CsvEditor.insColLoop col k l).length = l.length + k := by
  induction k generalizing l with
  | zero => rfl
  | succ k ih =>
    rw [CsvEditor.insColLoop, ih, length_pyInsert]; omega

lemma insRowLoop_mem {nr r : List String} {pos k : Nat} {data : List (List String)}
    (h : r ∈ CsvEditor.insRowLoop nr pos k data) : r = nr ∨ r ∈ data := by
  induction k generalizing data with
  | zero => exact Or.inr h
  | succ k ih =>
    rcases ih h with h1 | h1
    · exact Or.inl h1
    · by_cases hp : pos ≤ data.length
      · exact (List.mem_insertIdx hp).1 h1
      · rw [List.insertIdx_of_length_lt _ _ _ (by omega)] at h1
        exact Or.inr h1

lemma remRowLoop_mem {pos k : Nat} {data : List (List String)} {r : List String}
    (h : r ∈ CsvEditor.remRowLoop pos k data) : r ∈ data := by
  induction k generalizing data with
  | zero => exact h
  | succ k ih =>
    have h1 := ih h
    by_cases hp : pos < data.length
    · rw [if_pos hp] at h1
      exact (List.eraseIdx_sublist data pos).mem h1
    · rwa [if_neg hp] at h1

lemma rect_of_uniform {e : CsvEditor} {L : Nat}
    (hall : ∀ r ∈ e._data, r.length = L)
    (hh : e._headers = [] ∨ e._headers.length = L) :
    rectangular e := by
  intro r hr
  rw [hall r hr]
  unfold CsvEditor.column_count
  by_cases he : e._headers.isEmpty
  · rw [if_pos he]
    cases hd : e._data with
    | nil => rw [hd] at hr; cases hr
    | cons r0 rest =>
      have : r0 ∈ e._data := by rw [hd]; exact List.mem_cons_self _ _
      exact (hall r0 this).symm
  · rw [if_neg he]
    rcases hh with h | h
    · exact absurd (by rw [h]; rfl) he
    · omega

lemma headers_or (e : CsvEditor) :
    e._headers = [] ∨ e._headers.length = e.column_count := by
  by_cases he : e._headers.isEmpty
  · exact Or.inl (List.isEmpty_iff.mp he)
  · right; unfold CsvEditor.column_count; rw [if_neg he]

lemma rect_insert_row (e : CsvEditor) (row : Int) (count : Nat) (h : rectangular e) :
    rectangular (e.insert_row row count).1 := by
  unfold CsvEditor.insert_row
  by_cases hc : row < 0 ∨ (e._data.length : Int) < row
  · rw [if_pos hc]; exact h
  · rw [if_neg hc]
    apply rect_of_uniform (L := e.column_count)
    · intro r hr
      rcases insRowLoop_mem hr with h1 | h1
      · rw [h1, List.length_replicate]
      · exact h r h1
    · exact headers_or e

lemma rect_remove_row (e : CsvEditor) (row : Int) (count : Nat) (h : rectangular e) :
    rectangular (e.remove_row row count).1 := by
  unfold CsvEditor.remove_row
  by_cases hc : row < 0 ∨ (e._data.length : Int) ≤ row
  · rw [if_pos hc]; exact h
  · rw [if_neg hc]
    apply rect_of_uniform (L := e.column_count)
    · intro r hr
      exact h r (remRowLoop_mem hr)
    · exact headers_or e

lemma rect_insert_column (e : CsvEditor) (col : Int) (count : Nat) (h : rectangular e) :
    rectangular (e.insert_column col count).1 := by
  unfold CsvEditor.insert_column
  by_cases hc : col < 0
  · rw [if_pos hc]; exact h
  · rw [if_neg hc]
    apply rect_of_uniform (L := e.column_count + count)
    · intro r hr
      rw [List.mem_map] at hr
      obtain ⟨r0, hr0, rfl⟩ := hr
      rw [insColLoop_length, h r0 hr0]
    · right
      rw [insColLoop_length]
      by_cases he : e._headers.isEmpty
      · rw [if_pos he, List.length_replicate]
      · rw [if_neg he]
        unfold CsvEditor.column_count
        rw [if_neg he]

lemma rect_remColOnce (c : Nat) (e : CsvEditor) (h : rectangular e) :
    rectangular (CsvEditor.remColOnce c e) := by
  apply rect_of_uniform (L := if c < e.column_count then e.column_count - 1 else e.column_count)
  · intro r hr
    unfold CsvEditor.remColOnce at hr
    simp only [List.mem_map] at hr
    obtain ⟨r0, hr0, rfl⟩ := hr
    have hl := h r0 hr0
    rw [apply_ite List.length, List.length_eraseIdx]
    split_ifs <;> omega
  · unfold CsvEditor.remColOnce
    dsimp only
    by_cases he : e._headers.isEmpty
    · left
      rw [if_neg (by simp [he])]
      exact List.isEmpty_iff.mp he
    · have hlen : e._headers.length = e.column_count := by
        unfold CsvEditor.column_count; rw [if_neg he]
      right
      by_cases hc : c < e._headers.length
      · rw [if_pos ⟨by simpa using he, hc⟩, List.length_eraseIdx, if_pos hc]
        split_ifs <;> omega
      · rw [if_neg (by tauto)]
        split_ifs <;> omega

lemma rect_remove_column (e : CsvEditor) (col : Int) (count : Nat) (h : rectangular e) :
    rectangular (e.remove_column col count).1 := by
  unfold CsvEditor.remove_column
  by_cases hc : col < 0
  · rw [if_pos hc]; exact h
  · rw [if_neg hc]
    show rectangular (CsvEditor.remColLoop col.toNat count e)
    induction count generalizing e with
    | zero => exact h
    | succ k ih => exact ih _ (rect_remColOnce col.toNat e h)

lemma rect_applyOp (e : CsvEditor) (op : StructOp) (h : rectangular e) :
    rectangular (applyOp e op) := by
  cases op with
  | insRow row count => exact rect_insert_row e row count h
  | remRow row count => exact rect_remove_row e row count h
  | insCol col count => exact rect_insert_column e col count h
  | remCol col count => exact rect_remove_column e col count h

/-- C1: rectangularity is preserved by the structural operations: starting
from any document in which every row's length equals `column_count`, after
any sequence of `insert_row`, `remove_row`, `insert_column`, `remove_column`
calls (with arbitrary, in particular all valid, indices and counts) every
row's length again equals `column_count`; applying this to every prefix of a
sequence gives the invariant after each call. -/
theorem rectangularity_preserved (e : CsvEditor) (h : rectangular e)
    (ops : List StructOp) : rectangular (ops.foldl applyOp e) := by
  induction ops generalizing e with
  | nil => exact h
  | cons op ops ih => exact ih _ (rect_applyOp e op h)

/-- Witness for C1 at a concrete document and operation sequence. -/
theorem rectangularity_preserved_witness :
    rectangular ⟨[["x", "y"]], ["A", "B"]⟩ ∧
    rectangular (List.foldl applyOp ⟨[["x", "y"]], ["A", "B"]⟩
      [StructOp.insCol 1 2, StructOp.insRow 0 1, StructOp.remCol 0 1,
       StructOp.remRow 1 1]) :=
  ⟨by decide, rectangularity_preserved _ (by decide) _⟩

lemma pySet_nonneg {l : List α} {i : Int} {a : α} (h0 : 0 ≤ i)
    (h1 : i < (l.length : Int)) : pySet l i a = some (l.set i.toNat a) := by
  unfold pySet pyIdx
  rw [if_pos h0, if_pos h1]
  rfl

lemma pySet_neg {l : List α} {i : Int} {a : α} (h0 : i < 0)
    (h1 : -i ≤ (l.length : Int)) :
    pySet l i a = some (l.set (l.length - (-i).toNat) a) := by
  unfold pySet pyIdx
  rw [if_neg (by omega), if_pos (by omega)]
  have hk : ((l.length : Int) + i).toNat = l.length - (-i).toNat := by omega
  rw [Option.map_some', hk]

lemma pySet_oob_neg {l : List α} {i : Int} {a : α} (h0 : i < 0)
    (h1 : (l.length : Int) < -i) : pySet l i a = none := by
  unfold pySet pyIdx
  rw [if_neg (by omega), if_neg (by omega)]
  rfl

lemma pyGet_nonneg {l : List α} {i : Int} (d : α) (h0 : 0 ≤ i)
    (h1 : i < (l.length : Int)) : pyGet l i = some (l.getD i.toNat d) := by
  unfold pyGet pyIdx
  rw [if_pos h0, if_pos h1]
  have hk : i.toNat < l.length := by omega
  simp [List.getD_eq_getElem?_getD, List.getElem?_eq_getElem hk]

/-- C3 counterexample: `set_header(-1, "z")` on headers `["a", "b"]` does not
reject the negative index: it returns `true` and overwrites the last header
(so it neither returns `false` nor leaves the headers unchanged). -/
theorem set_header_neg_cex :
    CsvEditor.set_header ⟨[], ["a", "b"]⟩ (-1) "z" = some (⟨[], ["a", "z"]⟩, true) ∧
    CsvEditor.set_header ⟨[], ["a", "b"]⟩ (-1) "z" ≠ some (⟨[], ["a", "b"]⟩, false) := by
  decide

/-- C3 amended: for `col >= 0`, `set_header` pads the headers with `""` up
to `col`, sets the header, and returns `true` (rows untouched); a negative
`col` is not rejected: with `-len(headers) <= col < 0` it overwrites the
header at `len(headers) + col` and returns `true`, and with
`col < -len(headers)` it raises `IndexError`. -/
theorem set_header_amended (e : CsvEditor) (col : Int) (v : String) :
    (0 ≤ col → CsvEditor.set_header e col v =
      some (⟨e._data,
        (e._headers ++ List.replicate (col.toNat + 1 - e._headers.length) "").set
          col.toNat v⟩, true)) ∧
    (col < 0 → -col ≤ (e._headers.length : Int) → CsvEditor.set_header e col v =
      some (⟨e._data, e._headers.set (e._headers.length - (-col).toNat) v⟩, true)) ∧
    (col < 0 → (e._headers.length : Int) < -col →
      CsvEditor.set_header e col v = none) := by
  refine ⟨?_, ?_, ?_⟩
  · intro h0
    simp only [CsvEditor.set_header]
    by_cases hlen : (e._headers.length : Int) ≤ col
    · rw [if_pos hlen,
        pySet_nonneg h0 (by simp only [List.length_append, List.length_replicate]; omega)]
    · rw [if_neg hlen]
      have hz : col.toNat + 1 - e._headers.length = 0 := by omega
      rw [hz, List.replicate_zero, List.append_nil, pySet_nonneg h0 (by omega)]
  · intro h0 h1
    simp only [CsvEditor.set_header]
    rw [if_neg (by omega), pySet_neg h0 h1]
  · intro h0 h1
    simp only [CsvEditor.set_header]
    rw [if_neg (by omega), pySet_oob_neg h0 h1]

/-- Witness for C3 amended: padding set at `col = 2`, negative overwrite at
`col = -2` of three headers, `IndexError` at `col = -2` of one header. -/
theorem set_header_amended_witness :
    CsvEditor.set_header ⟨[], ["a"]⟩ 2 "v" = some (⟨[], ["a", "", "v"]⟩, true) ∧
    CsvEditor.set_header ⟨[], ["a", "b", "c"]⟩ (-2) "w" = some (⟨[], ["a", "w", "c"]⟩, true) ∧
    CsvEditor.set_header ⟨[], ["a"]⟩ (-2) "w" = none := by
  refine ⟨?_, ?_, ?_⟩
  · rw [(set_header_amended ⟨[], ["a"]⟩ 2 "v").1 (by decide)]; decide
  · rw [(set_header_amended ⟨[], ["a", "b", "c"]⟩ (-2) "w").2.1 (by decide) (by decide)]
    decide
  · exact (set_header_amended ⟨[], ["a"]⟩ (-2) "w").2.2 (by decide) (by decide)

/-- C4: `load_from_csv` is atomic on failure: the read happens before any
mutation, so when open/read/decode raises, the error propagates and the
document's headers and rows are exactly what they were before the call. -/
theorem load_from_csv_error_preserves (e : CsvEditor) (err : String) :
    CsvEditor.load_from_csv e (Except.error err) = (e, some err) :=
  rfl

/-- C5: bounds rejection with no mutation: `set_cell(-1, 0, "x")`,
`insert_row(-1)` and `remove_row(row_count())` all return `false` and leave
the document unchanged. -/
theorem bounds_rejection (e : CsvEditor) :
    CsvEditor.set_cell e (-1) 0 "x" = some (e, false) ∧
    CsvEditor.insert_row e (-1) 1 = (e, false) ∧
    CsvEditor.remove_row e (e.row_count : Int) 1 = (e, false) := by
  refine ⟨?_, ?_, ?_⟩
  · simp only [CsvEditor.set_cell]
    rw [if_pos (Or.inl (by omega))]
  · simp only [CsvEditor.insert_row]
    rw [if_pos (Or.inl (by omega))]
  · simp only [CsvEditor.remove_row, CsvEditor.row_count]
    rw [if_pos (Or.inr (le_refl _))]

/-- C7: the scenario trace from the spec: headers `["A","B"]`, no rows;
`insert_row 0`, `set_cell 0 1 "x"`, `insert_column 1`, `remove_column 0`,
with the stated intermediate observations. -/
theorem scenario_trace :
    CsvEditor.insert_row ⟨[], ["A", "B"]⟩ 0 1 = (⟨[["", ""]], ["A", "B"]⟩, true) ∧
    CsvEditor.row_count ⟨[["", ""]], ["A", "B"]⟩ = 1 ∧
    CsvEditor.set_cell ⟨[["", ""]], ["A", "B"]⟩ 0 1 "x" =
      some (⟨[["", "x"]], ["A", "B"]⟩, true) ∧
    CsvEditor.get_cell ⟨[["", "x"]], ["A", "B"]⟩ 0 1 = "x" ∧
    CsvEditor.insert_column ⟨[["", "x"]], ["A", "B"]⟩ 1 1 =
      (⟨[["", "", "x"]], ["A", "", "B"]⟩, true) ∧
    CsvEditor.column_count ⟨[["", "", "x"]], ["A", "", "B"]⟩ = 3 ∧
    CsvEditor.get_cell ⟨[["", "", "x"]], ["A", "", "B"]⟩ 0 1 = "" ∧
    CsvEditor.get_cell ⟨[["", "", "x"]], ["A", "", "B"]⟩ 0 2 = "x" ∧
    CsvEditor.remove_column ⟨[["", "", "x"]], ["A", "", "B"]⟩ 0 1 =
      (⟨[["", "x"]], ["", "B"]⟩, true) ∧
    CsvEditor.column_count ⟨[["", "x"]], ["", "B"]⟩ = 2 ∧
    CsvEditor.get_cell ⟨[["", "x"]], ["", "B"]⟩ 0 0 = "" ∧
    CsvEditor.get_cell ⟨[["", "x"]], ["", "B"]⟩ 0 1 = "x" := by
  decide

/-- C8 counterexample: `get_header(-1)` on headers `["a", "b"]` returns the
stored last header `"b"` (Python negative indexing), not the placeholder
`"Column 0"`; and `get_header(-3)` on the same document raises `IndexError`,
so the call is not total. -/
theorem get_header_neg_cex :
    CsvEditor.get_header ⟨[], ["a", "b"]⟩ (-1) = some "b" ∧
    some "b" ≠ some ("Column " ++ toString ((-1 : Int) + 1)) ∧
    CsvEditor.get_header ⟨[], ["a", "b"]⟩ (-3) = none := by
  decide

/-- C8 amended: for every `col >= 0`, `get_header` returns the stored header
when headers are non-empty and `col` is within their bounds, and otherwise
the placeholder `"Column " + (col + 1)`; it never fails for `col >= 0`. -/
theorem get_header_amended (e : CsvEditor) (col : Int) (h0 : 0 ≤ col) :
    CsvEditor.get_header e col =
      some (if ¬e._headers.isEmpty ∧ col < (e._headers.length : Int)
        then e._headers.getD col.toNat ""
        else "Column " ++ toString (col + 1)) := by
  unfold CsvEditor.get_header
  by_cases hc : ¬e._headers.isEmpty ∧ col < (e._headers.length : Int)
  · rw [if_pos hc, if_pos hc, pyGet_nonneg "" h0 hc.2]
  · rw [if_neg hc, if_neg hc]

/-- Witness for C8 amended: `get_header(5)` on a document with exactly two
headers returns `"Column 6"`. -/
theorem get_header_amended_witness :
    0 ≤ (5 : Int) ∧ CsvEditor.get_header ⟨[], ["a", "b"]⟩ 5 = some "Column 6" := by
  refine ⟨by decide, ?_⟩
  rw [get_header_amended ⟨[], ["a", "b"]⟩ 5 (by decide)]
  decide

/-- C9: `set_cell` does not reject a negative column index: with a valid row
index, if `-len(row) <= col < 0` it returns `true` and overwrites the cell
at `len(row) + col`; if the addressed row has zero cells a negative `col`
raises an unhandled `IndexError` instead of returning a boolean. -/
theorem set_cell_negative_col (e : CsvEditor) (row col : Int) (v : String)
    (h1 : 0 ≤ row) (h2 : row < (e._data.length : Int)) (h3 : col < 0) :
    (-col ≤ ((e._data.getD row.toNat []).length : Int) →
      CsvEditor.set_cell e row col v =
        some (⟨e._data.set row.toNat
            ((e._data.getD row.toNat []).set
              ((e._data.getD row.toNat []).length - (-col).toNat) v),
          e._headers⟩, true)) ∧
    (e._data.getD row.toNat [] = [] → CsvEditor.set_cell e row col v = none) := by
  constructor
  · intro h4
    simp only [CsvEditor.set_cell]
    rw [if_neg (by omega), if_neg (by omega), pySet_neg h3 h4]
  · intro h4
    simp only [CsvEditor.set_cell]
    rw [if_neg (by omega), if_neg (by omega),
      pySet_oob_neg h3 (by rw [h4]; simpa using h3)]

/-- Witness for C9: overwrite through `col = -1` on row `["a", "b"]`, and
the `IndexError` on an empty row. -/
theorem set_cell_negative_col_witness :
    CsvEditor.set_cell ⟨[["a", "b"]], []⟩ 0 (-1) "z" = some (⟨[["a", "z"]], []⟩, true) ∧
    CsvEditor.set_cell ⟨[[]], []⟩ 0 (-1) "z" = none := by
  constructor
  · rw [(set_cell_negative_col ⟨[["a", "b"]], []⟩ 0 (-1) "z"
      (by decide) (by decide) (by decide)).1 (by decide)]
    decide
  · exact (set_cell_negative_col ⟨[[]], []⟩ 0 (-1) "z"
      (by decide) (by decide) (by decide)).2 (by decide)

/-- C10: `save_to_csv` with `column_order = []` behaves exactly like
`save_to_csv` with `column_order = None`: the empty sequence is falsy, so
the permutation branch is skipped and all columns are written in their
original order. -/
theorem save_to_csv_empty_order (e : CsvEditor) :
    CsvEditor.save_to_csv e (some []) = CsvEditor.save_to_csv e none :=
  rfl

lemma le_listMax_self (a : Nat) (l : List Nat) : a ≤ listMax a l := by
  induction l generalizing a with
  | nil => exact le_refl a
  | cons x xs ih => exact le_trans (le_max_left a x) (ih (max a x))

lemma le_listMax_of_mem {x a : Nat} {l : List Nat} (h : x ∈ l) : x ≤ listMax a l := by
  induction l generalizing a with
  | nil => cases h
  | cons y ys ih =>
    rcases List.mem_cons.mp h with h1 | h1
    · subst h1
      exact le_trans (le_max_right a x) (le_listMax_self (max a x) ys)
    · exact ih h1

lemma listMax_eq_of_all_le {a : Nat} {l : List Nat} (h : ∀ x ∈ l, x ≤ a) :
    listMax a l = a := by
  induction l with
  | nil => rfl
  | cons x xs ih =>
    have hx : max a x = a := max_eq_left (h x (List.mem_cons_self _ _))
    show listMax (max a x) xs = a
    rw [hx]
    exact ih (fun y hy => h y (List.mem_cons_of_mem _ hy))

lemma loadRecords_spec (recs : List (List String)) :
    (CsvEditor.loadRecords recs)._headers
      = recs.headD [] ++ List.replicate
          (listMax (recs.headD []).length (recs.tail.map List.length)
            - (recs.headD []).length) "" ∧
    (CsvEditor.loadRecords recs)._data
      = recs.tail.map (fun r => r ++ List.replicate
          (listMax (recs.headD []).length (recs.tail.map List.length) - r.length) "") := by
  cases recs with
  | nil => exact ⟨rfl, rfl⟩
  | cons h t =>
    unfold CsvEditor.loadRecords
    simp only [List.isEmpty_cons, if_neg Bool.false_ne_true, List.headD_cons, List.tail_cons]
    by_cases ht : t.isEmpty
    · have : t = [] := List.isEmpty_iff.mp ht
      subst this
      exact ⟨rfl, rfl⟩
    · rw [if_neg ht]
      exact ⟨rfl, rfl⟩

/-- C6: padding on ragged load: after `load_from_csv`, the header row and all
data rows are right-padded with `""` to the maximum field count observed
across the header record and all data records; in particular loading a file
whose header record has 3 fields and whose single data record has 5 fields
yields `column_count = 5` with a 5-entry header row ending in 2 empty
strings. -/
theorem load_pads_to_max :
    (∀ (s : String) (d : CsvEditor),
      (CsvEditor.load_from_csv d (Except.ok s)).1._headers
        = (csvParse s.data).headD [] ++ List.replicate
            (listMax ((csvParse s.data).headD []).length
                ((csvParse s.data).tail.map List.length)
              - ((csvParse s.data).headD []).length) "" ∧
      (CsvEditor.load_from_csv d (Except.ok s)).1._data
        = (csvParse s.data).tail.map (fun r => r ++ List.replicate
            (listMax ((csvParse s.data).headD []).length
                ((csvParse s.data).tail.map List.length) - r.length) "") ∧
      (CsvEditor.load_from_csv d (Except.ok s)).1.column_count
        = listMax ((csvParse s.data).headD []).length
            ((csvParse s.data).tail.map List.length) ∧
      ∀ r ∈ (CsvEditor.load_from_csv d (Except.ok s)).1._data,
        r.length = listMax ((csvParse s.data).headD []).length
            ((csvParse s.data).tail.map List.length)) ∧
    (CsvEditor.load_from_csv ⟨[], []⟩ (Except.ok "a,b,c\r\nd,e,f,g,h\r\n")).1
      = ⟨[["d", "e", "f", "g", "h"]], ["a", "b", "c", "", ""]⟩ ∧
    (CsvEditor.load_from_csv ⟨[], []⟩ (Except.ok "a,b,c\r\nd,e,f,g,h\r\n")).1.column_count
      = 5 := by
  refine ⟨?_, by decide, by decide⟩
  intro s d
  obtain ⟨hh, hd⟩ := loadRecords_spec (csvParse s.data)
  have hload : (CsvEditor.load_from_csv d (Except.ok s)).1
      = CsvEditor.loadRecords (csvParse s.data) := rfl
  rw [hload, hh, hd]
  set hd0 := (csvParse s.data).headD [] with hhd0
  set tl := (csvParse s.data).tail with htl
  set M := listMax hd0.length (tl.map List.length) with hM
  have hhle : hd0.length ≤ M := le_listMax_self _ _
  have hrow : ∀ r ∈ tl, r.length ≤ M := by
    intro r hr
    exact le_listMax_of_mem (List.mem_map_of_mem List.length hr)
  have hrows : ∀ r ∈ tl.map (fun r => r ++ List.replicate (M - r.length) ""),
      r.length = M := by
    intro r hr
    rw [List.mem_map] at hr
    obtain ⟨r0, hr0, rfl⟩ := hr
    have := hrow r0 hr0
    rw [List.length_append, List.length_replicate]
    omega
  refine ⟨rfl, rfl, ?_, hrows⟩
  unfold CsvEditor.column_count
  rw [hh, hd]
  by_cases he : (hd0 ++ List.replicate (M - hd0.length) "").isEmpty
  · rw [if_pos he]
    have hM0 : M = 0 := by
      have h0 := List.isEmpty_iff.mp he
      have hlen : hd0.length + (M - hd0.length) = 0 := by
        rw [← List.length_replicate (M - hd0.length) "", ← List.length_append, h0]
        rfl
      omega
    cases hmt : tl.map (fun r => r ++ List.replicate (M - r.length) "") with
    | nil => exact hM0.symm
    | cons r0 rest =>
      have hmem : r0 ∈ tl.map (fun r => r ++ List.replicate (M - r.length) "") := by
        rw [hmt]; exact List.mem_cons_self _ _
      exact hrows r0 hmem
  · rw [if_neg he, List.length_append, List.length_replicate]
    omega

lemma run_atRecord_crlf (rest : List Char) (f : List Char) (r : List String) :
    csvRun .atRecord ('\r' :: '\n' :: rest) f r = [] :: csvRun .atRecord rest [] [] := by
  simp [csvRun]

lemma run_atRecord_comma (rest : List Char) (f : List Char) (r : List String) :
    csvRun .atRecord (',' :: rest) f r = csvRun .atField rest [] [""] := by
  simp [csvRun]

lemma run_atRecord_quote (rest : List Char) (f : List Char) (r : List String) :
    csvRun .atRecord ('"' :: rest) f r = csvRun .inQuoted rest [] [] := by
  simp [csvRun]

lemma run_atRecord_other {c : Char} (h : ¬csvSpecial c) (rest : List Char)
    (f : List Char) (r : List String) :
    csvRun .atRecord (c :: rest) f r = csvRun .inField rest [c] [] := by
  simp only [csvSpecial, not_or] at h
  simp [csvRun, h.1, h.2.1, h.2.2.1, h.2.2.2]

lemma run_atField_crlf (rest : List Char) (f : List Char) (r : List String) :
    csvRun .atField ('\r' :: '\n' :: rest) f r = (r ++ [""]) :: csvRun .atRecord rest [] [] := by
  simp [csvRun]

lemma run_atField_comma (rest : List Char) (f : List Char) (r : List String) :
    csvRun .atField (',' :: rest) f r = csvRun .atField rest [] (r ++ [""]) := by
  simp [csvRun]

lemma run_atField_quote (rest : List Char) (f : List Char) (r : List String) :
    csvRun .atField ('"' :: rest) f r = csvRun .inQuoted rest [] r := by
  simp [csvRun]

lemma run_atField_other {c : Char} (h : ¬csvSpecial c) (rest : List Char)
    (f : List Char) (r : List String) :
    csvRun .atField (c :: rest) f r = csvRun .inField rest [c] r := by
  simp only [csvSpecial, not_or] at h
  simp [csvRun, h.1, h.2.1, h.2.2.1, h.2.2.2]

lemma run_inField_crlf (rest : List Char) (f : List Char) (r : List String) :
    csvRun .inField ('\r' :: '\n' :: rest) f r
      = (r ++ [String.mk f]) :: csvRun .atRecord rest [] [] := by
  simp [csvRun]

lemma run_inField_comma (rest : List Char) (f : List Char) (r : List String) :
    csvRun .inField (',' :: rest) f r = csvRun .atField rest [] (r ++ [String.mk f]) := by
  simp [csvRun]

lemma run_inField_other {c : Char} (h : ¬csvSpecial c) (rest : List Char)
    (f : List Char) (r : List String) :
    csvRun .inField (c :: rest) f r = csvRun .inField rest (f ++ [c]) r := by
  simp only [csvSpecial, not_or] at h
  simp [csvRun, h.1, h.2.1, h.2.2.1, h.2.2.2]

lemma run_inQuoted_quote (rest : List Char) (f : List Char) (r : List String) :
    csvRun .inQuoted ('"' :: rest) f r = csvRun .quoteInQuoted rest f r := by
  simp [csvRun]

lemma run_inQuoted_other {c : Char} (h : c ≠ '"') (rest : List Char)
    (f : List Char) (r : List String) :
    csvRun .inQuoted (c :: rest) f r = csvRun .inQuoted rest (f ++ [c]) r := by
  simp [csvRun, h]

lemma run_quoteInQuoted_quote (rest : List Char) (f : List Char) (r : List String) :
    csvRun .quoteInQuoted ('"' :: rest) f r = csvRun .inQuoted rest (f ++ ['"']) r := by
  simp [csvRun]

lemma run_quoteInQuoted_comma (rest : List Char) (f : List Char) (r : List String) :
    csvRun .quoteInQuoted (',' :: rest) f r
      = csvRun .atField rest [] (r ++ [String.mk f]) := by
  simp [csvRun]

lemma run_quoteInQuoted_crlf (rest : List Char) (f : List Char) (r : List String) :
    csvRun .quoteInQuoted ('\r' :: '\n' :: rest) f r
      = (r ++ [String.mk f]) :: csvRun .atRecord rest [] [] := by
  simp [csvRun]

lemma run_inQuoted_esc (f : List Char) (rest : List Char) (facc : List Char)
    (racc : List String) :
    csvRun .inQuoted (escQuotes f ++ '"' :: rest) facc racc
      = csvRun .quoteInQuoted rest (facc ++ f) racc := by
  induction f generalizing facc with
  | nil =>
    rw [escQuotes, List.nil_append, run_inQuoted_quote, List.append_nil]
  | cons c cs ih =>
    by_cases hc : c = '"'
    · subst hc
      rw [escQuotes, if_pos rfl, List.cons_append, List.cons_append,
        run_inQuoted_quote, run_quoteInQuoted_quote, ih]
      simp
    · rw [escQuotes, if_neg hc, List.cons_append, run_inQuoted_other hc, ih]
      simp

lemma run_inField_chars (cs : List Char) (hall : ∀ c ∈ cs, ¬csvSpecial c)
    (rest : List Char) (f : List Char) (r : List String) :
    csvRun .inField (cs ++ rest) f r = csvRun .inField rest (f ++ cs) r := by
  induction cs generalizing f with
  | nil => simp
  | cons c cs ih =>
    rw [List.cons_append, run_inField_other (hall c (List.mem_cons_self _ _)),
      ih (fun x hx => hall x (List.mem_cons_of_mem _ hx))]
    simp

lemma needsQuoting_false_forall {s : String} (h : needsQuoting s = false) :
    ∀ c ∈ s.data, ¬csvSpecial c := by
  intro c hc
  have := List.any_eq_false.mp h c hc
  simpa using this

lemma string_eq_of_data {s : String} {l : List Char} (h : s.data = l) :
    s = String.mk l := by
  cases s
  exact congrArg String.mk h

lemma run_field_comma (s : String) (rest : List Char) (racc : List String) :
    csvRun .atField (writeField s ++ ',' :: rest) [] racc
      = csvRun .atField rest [] (racc ++ [s]) := by
  by_cases hq : needsQuoting s
  · rw [writeField, if_pos hq, List.cons_append, List.append_assoc,
      List.singleton_append, run_atField_quote, run_inQuoted_esc,
      run_quoteInQuoted_comma]
    simp
  · have hall := needsQuoting_false_forall (Bool.of_not_eq_true hq)
    rw [writeField, if_neg hq]
    cases hd : s.data with
    | nil =>
      have hs : s = "" := string_eq_of_data hd
      rw [List.nil_append, run_atField_comma, hs]
    | cons c cs =>
      have hs : s = String.mk (c :: cs) := string_eq_of_data hd
      rw [hd] at hall
      rw [List.cons_append,
        run_atField_other (hall c (List.mem_cons_self _ _)),
        run_inField_chars cs (fun x hx => hall x (List.mem_cons_of_mem _ hx)),
        run_inField_comma]
      simp [hs]

lemma run_field_crlf (s : String) (rest : List Char) (racc : List String) :
    csvRun .atField (writeField s ++ '\r' :: '\n' :: rest) [] racc
      = (racc ++ [s]) :: csvRun .atRecord rest [] [] := by
  by_cases hq : needsQuoting s
  · rw [writeField, if_pos hq, List.cons_append, List.append_assoc,
      List.singleton_append, run_atField_quote, run_inQuoted_esc,
      run_quoteInQuoted_crlf]
    simp
  · have hall := needsQuoting_false_forall (Bool.of_not_eq_true hq)
    rw [writeField, if_neg hq]
    cases hd : s.data with
    | nil =>
      have hs : s = "" := string_eq_of_data hd
      rw [List.nil_append, run_atField_crlf, hs]
    | cons c cs =>
      have hs : s = String.mk (c :: cs) := string_eq_of_data hd
      rw [hd] at hall
      rw [List.cons_append,
        run_atField_other (hall c (List.mem_cons_self _ _)),
        run_inField_chars cs (fun x hx => hall x (List.mem_cons_of_mem _ hx)),
        run_inField_crlf]
      simp [hs]

lemma run_fields (f : String) (fs : List String) (rest : List Char)
    (racc : List String) :
    csvRun .atField (writeFields (f :: fs) ++ '\r' :: '\n' :: rest) [] racc
      = (racc ++ f :: fs) :: csvRun .atRecord rest [] [] := by
  induction fs generalizing f racc with
  | nil =>
    show csvRun .atField (writeField f ++ '\r' :: '\n' :: rest) [] racc = _
    rw [run_field_crlf]
  | cons f2 fs2 ih =>
    show csvRun .atField
      ((writeField f ++ ',' :: writeFields (f2 :: fs2)) ++ '\r' :: '\n' :: rest)
      [] racc = _
    rw [List.append_assoc, List.cons_append, run_field_comma, ih]
    simp

lemma not_nl_of_not_special {c : Char} (h : ¬csvSpecial c) : c ≠ '\n' ∧ c ≠ '\r' := by
  simp only [csvSpecial, not_or] at h
  exact ⟨h.2.2.2, h.2.2.1⟩

lemma writeFields_head_not_nl (f : String) (fs : List String)
    (h : ¬(f :: fs = [] ∨ f :: fs = [""])) :
    ∃ c rest', writeFields (f :: fs) = c :: rest' ∧ c ≠ '\n' ∧ c ≠ '\r' := by
  by_cases hq : needsQuoting f
  · cases fs with
    | nil =>
      refine ⟨'"', escQuotes f.data ++ ['"'], ?_, by decide, by decide⟩
      show writeField f = _
      rw [writeField, if_pos hq]
    | cons f2 fs2 =>
      refine ⟨'"', (escQuotes f.data ++ ['"']) ++ ',' :: writeFields (f2 :: fs2),
        ?_, by decide, by decide⟩
      show writeField f ++ ',' :: writeFields (f2 :: fs2) = _
      rw [writeField, if_pos hq, List.cons_append]
  · have hall := needsQuoting_false_forall (Bool.of_not_eq_true hq)
    cases hd : f.data with
    | nil =>
      have hf : f = "" := string_eq_of_data hd
      cases fs with
      | nil => exact absurd (Or.inr (by rw [hf])) h
      | cons f2 fs2 =>
        refine ⟨',', writeFields (f2 :: fs2), ?_, by decide, by decide⟩
        show writeField f ++ ',' :: writeFields (f2 :: fs2) = _
        rw [writeField, if_neg hq, hd, List.nil_append]
    | cons c cs =>
      rw [hd] at hall
      obtain ⟨h1, h2⟩ := not_nl_of_not_special (hall c (List.mem_cons_self _ _))
      cases fs with
      | nil =>
        refine ⟨c, cs, ?_, h1, h2⟩
        show writeField f = _
        rw [writeField, if_neg hq, hd]
      | cons f2 fs2 =>
        refine ⟨c, cs ++ ',' :: writeFields (f2 :: fs2), ?_, h1, h2⟩
        show writeField f ++ ',' :: writeFields (f2 :: fs2) = _
        rw [writeField, if_neg hq, hd, List.cons_append]

lemma run_atRecord_as_atField {c : Char} (h1 : c ≠ '\n') (h2 : c ≠ '\r')
    (cs : List Char) (f : List Char) (r : List String) :
    csvRun .atRecord (c :: cs) f r = csvRun .atField (c :: cs) [] [] := by
  by_cases hc : c = ','
  · subst hc
    rw [run_atRecord_comma, run_atField_comma, List.nil_append]
  · by_cases hqt : c = '"'
    · subst hqt
      rw [run_atRecord_quote, run_atField_quote]
    · have hns : ¬csvSpecial c := by simp [csvSpecial, h1, h2, hc, hqt]
      rw [run_atRecord_other hns, run_atField_other hns]

lemma run_record (r : List String) (rest : List Char) :
    csvRun .atRecord (writeRecord r ++ rest) [] []
      = (if r = [] then [] else r) :: csvRun .atRecord rest [] [] := by
  by_cases hq : r = [""]
  · subst hq
    rw [if_neg (by decide)]
    show csvRun .atRecord ('"' :: '"' :: '\r' :: '\n' :: rest) [] [] = _
    rw [run_atRecord_quote, run_inQuoted_quote, run_quoteInQuoted_crlf]
    rfl
  · by_cases hr : r = []
    · subst hr
      rw [if_pos rfl]
      show csvRun .atRecord ('\r' :: '\n' :: rest) [] [] = _
      rw [run_atRecord_crlf]
    · rw [if_neg hr]
      cases r with
      | nil => exact absurd rfl hr
      | cons f fs =>
        have hnb : ¬(f :: fs = [] ∨ f :: fs = [""]) := by simp [hq]
        obtain ⟨c, rest', hw, h1, h2⟩ := writeFields_head_not_nl f fs hnb
        have hsh : writeRecord (f :: fs) ++ rest
            = c :: (rest' ++ '\r' :: '\n' :: rest) := by
          rw [writeRecord, if_neg hq, hw]
          simp
        rw [hsh, run_atRecord_as_atField h1 h2, ← List.cons_append, ← hw, run_fields]
        simp

lemma run_records (rs : List (List String)) :
    csvParse (writeRecords rs)
      = rs.map (fun r => if r = [] then [] else r) := by
  induction rs with
  | nil => rfl
  | cons r rs ih =>
    show csvRun .atRecord (writeRecord r ++ writeRecords rs) [] [] = _
    rw [run_record,
      show csvRun .atRecord (writeRecords rs) [] [] = csvParse (writeRecords rs) from rfl,
      ih, List.map_cons]

lemma column_count_of_headers {e : CsvEditor} (hne : e._headers ≠ []) :
    e.column_count = e._headers.length := by
  unfold CsvEditor.column_count
  rw [if_neg (by simpa [List.isEmpty_iff] using hne)]

lemma save_eq_writeRecords (e : CsvEditor) (hrect : rectangular e)
    (hne : e._headers ≠ []) :
    CsvEditor.save_to_csv e none
      = some (String.mk (writeRecords (e._headers :: e._data))) := by
  have hall : ∀ r ∈ e._data, r.length = e._headers.length := by
    intro r hr
    rw [hrect r hr, column_count_of_headers hne]
  have hmax : (if e._data.isEmpty then e._headers.length
      else listMax e._headers.length (e._data.map List.length)) = e._headers.length := by
    split
    · rfl
    · apply listMax_eq_of_all_le
      intro x hx
      rw [List.mem_map] at hx
      obtain ⟨r, hr, rfl⟩ := hx
      exact le_of_eq (hall r hr)
  simp only [CsvEditor.save_to_csv, CsvEditor.orderTruthy]
  rw [if_neg (by simp), hmax, Nat.sub_self, List.replicate_zero, List.append_nil]
  have h1 : ∀ r ∈ e._data,
      r ++ List.replicate (e._headers.length - r.length) "" = id r := by
    intro r hr
    rw [hall r hr, Nat.sub_self, List.replicate_zero, List.append_nil]
    rfl
  rw [List.map_congr_left h1, List.map_id]

lemma loadRecords_save (e : CsvEditor) (hrect : rectangular e)
    (hne : e._headers ≠ []) :
    CsvEditor.loadRecords (csvParse (writeRecords (e._headers :: e._data))) = e := by
  have hH : 1 ≤ e._headers.length := by
    cases hh : e._headers with
    | nil => exact absurd hh hne
    | cons a l => simp
  have hall : ∀ r ∈ e._data, r.length = e._headers.length := by
    intro r hr
    rw [hrect r hr, column_count_of_headers hne]
  have hnonnil : ∀ r ∈ e._data, r ≠ [] := by
    intro r hr hcontra
    have := hall r hr
    rw [hcontra] at this
    simp at this
    omega
  rw [run_records, List.map_cons, if_neg hne]
  have hmap : (e._data.map fun r => if r = [] then [] else r) = e._data := by
    have h0 : ∀ r ∈ e._data, (if r = [] then [] else r) = id r := by
      intro r hr
      rw [if_neg (hnonnil r hr)]
      rfl
    rw [List.map_congr_left h0, List.map_id]
  rw [hmap]
  unfold CsvEditor.loadRecords
  simp only [List.isEmpty_cons, Bool.false_eq_true, if_false, List.headD_cons,
    List.tail_cons]
  have hmax : (if e._data.isEmpty then e._headers.length
        else listMax e._headers.length (e._data.map List.length))
      = e._headers.length := by
    split
    · rfl
    · apply listMax_eq_of_all_le
      intro x hx
      rw [List.mem_map] at hx
      obtain ⟨r, hr, rfl⟩ := hx
      exact le_of_eq (hall r hr)
  rw [hmax, Nat.sub_self, List.replicate_zero, List.append_nil]
  have h1 : ∀ r ∈ e._data,
      r ++ List.replicate (e._headers.length - r.length) "" = id r := by
    intro r hr
    rw [hall r hr, Nat.sub_self, List.replicate_zero, List.append_nil]
    rfl
  rw [List.map_congr_left h1, List.map_id]

/-- C2 counterexample: the document with empty headers and the single row
`["a"]` has no ragged rows (`column_count` is 1 and the row has length 1),
yet `save_to_csv` pads the headers to `[""]` — serialized as the quoted
empty field line `""` — and `load_from_csv` therefore reloads the headers
as `[""]`, not the original `[]`. -/
theorem save_load_round_trip_cex :
    rectangular ⟨[["a"]], []⟩ ∧
    CsvEditor.save_to_csv ⟨[["a"]], []⟩ none = some "\"\"\r\na\r\n" ∧
    (CsvEditor.load_from_csv ⟨[["a"]], []⟩ (Except.ok "\"\"\r\na\r\n")).1
      = ⟨[["a"]], [""]⟩ ∧
    (⟨[["a"]], [""]⟩ : CsvEditor) ≠ ⟨[["a"]], []⟩ := by
  refine ⟨by decide, by decide, by decide, by decide⟩

/-- C2 amended: for every document with no ragged rows whose header list is
non-empty (so that saving does not synthesize padding headers the original
document lacks), `save_to_csv` followed by `load_from_csv` reproduces the
headers and rows exactly, byte for byte per field; in particular a cell
value containing a comma, a double quote, and an embedded newline survives
the round trip unchanged. -/
theorem save_load_round_trip (e : CsvEditor) (hrect : rectangular e)
    (h1 : e._headers ≠ []) (s : String) (d : CsvEditor)
    (hsave : CsvEditor.save_to_csv e none = some s) :
    (CsvEditor.load_from_csv d (Except.ok s)).1 = e := by
  rw [save_eq_writeRecords e hrect h1] at hsave
  have hs := Option.some.inj hsave
  rw [← hs]
  show CsvEditor.loadRecords
    (csvParse (String.mk (writeRecords (e._headers :: e._data))).data) = e
  exact loadRecords_save e hrect h1

/-- Witness for C2 amended: a document whose one cell contains a comma, a
double quote, and an embedded newline round-trips unchanged. -/
theorem save_load_round_trip_witness :
    CsvEditor.save_to_csv ⟨[["a,\"b\"\nc"]], ["H"]⟩ none
      = some "H\r\n\"a,\"\"b\"\"\nc\"\r\n" ∧
    (CsvEditor.load_from_csv ⟨[], []⟩
        (Except.ok "H\r\n\"a,\"\"b\"\"\nc\"\r\n")).1
      = ⟨[["a,\"b\"\nc"]], ["H"]⟩ := by
  refine ⟨by decide, ?_⟩
  exact save_load_round_trip ⟨[["a,\"b\"\nc"]], ["H"]⟩ (by decide) (by decide)
    "H\r\n\"a,\"\"b\"\"\nc\"\r\n" ⟨[], []⟩ (by decide)
